import Mathlib

/-!
Verification of the peer connection lifecycle subsystem of the p2p-gyro-game
repository.  The definitions below are a shallow embedding of the JavaScript
source, chiefly `WebRTCManager` (file `unnamed/part_015`, the revision marked
"Redesigned for reliability", together with the revisions kept in
`src/webrtc-manager.js`) and `src/keyphrase-generator.js`.  JavaScript strings
are embedded as `List Char`; the mutable maps of the manager become fields of
an explicit state record; timers are represented by the delay values the code
passes to the scheduler.
-/

namespace P2PGyro

/-! ## JavaScript string primitives

`String.prototype.toLowerCase`, `trim`, `replace` and `substring` as used by
the source, embedded over `List Char`.  `toLowerCase` is modelled on the ASCII
range, which covers every character the keyphrase generator emits. -/

/-- ASCII case folding of one character, as JS `toLowerCase` acts on ASCII. -/
def asciiLower (c : Char) : Char :=
  if 'A' ≤ c ∧ c ≤ 'Z' then Char.ofNat (c.toNat + 32) else c

/-- JS `String.prototype.toLowerCase` (ASCII fragment). -/
def jsToLower (s : List Char) : List Char :=
  s.map asciiLower

/-- Whether a character is JS whitespace for `trim` (space, tab, LF, VT, FF,
CR, NBSP, BOM). -/
def isJsWhitespace (c : Char) : Bool :=
  c.toNat ∈ [9, 10, 11, 12, 13, 32, 160, 65279]

/-- JS `String.prototype.trim`: strip leading and trailing whitespace. -/
def jsTrim (s : List Char) : List Char :=
  ((s.dropWhile isJsWhitespace).reverse.dropWhile isJsWhitespace).reverse

/-- UTF-8 encoding of one scalar value, as `TextEncoder.encode` produces. -/
def utf8Char (c : Char) : List Nat :=
  let n := c.toNat
  if n < 128 then [n]
  else if n < 2048 then [192 + n / 64, 128 + n % 64]
  else if n < 65536 then [224 + n / 4096, 128 + n / 64 % 64, 128 + n % 64]
  else [240 + n / 262144, 128 + n / 4096 % 64, 128 + n / 64 % 64, 128 + n % 64]

/-- UTF-8 encoding of a string (`new TextEncoder().encode(s)`). -/
def utf8Bytes (s : List Char) : List Nat :=
  s.flatMap utf8Char

/-! ## SHA-256

`hashKeyphrase` calls `crypto.subtle.digest('SHA-256', data)`.  The Web
Crypto digest is modelled here as the pure FIPS 180-4 SHA-256 function over
byte lists, with 32-bit words as `Nat` reduced mod `2^32`. -/

/-- Truncate to a 32-bit word. -/
def w32 (n : Nat) : Nat := n % 4294967296

/-- Right rotation of a 32-bit word by `n` places. -/
def rotr32 (n x : Nat) : Nat :=
  w32 ((x >>> n) ||| w32 (x <<< (32 - n)))

/-- FIPS 180-4 `Ch(x,y,z)`. -/
def chFn (x y z : Nat) : Nat := (x &&& y) ^^^ ((x ^^^ 4294967295) &&& z)

/-- FIPS 180-4 `Maj(x,y,z)`. -/
def majFn (x y z : Nat) : Nat := (x &&& y) ^^^ (x &&& z) ^^^ (y &&& z)

/-- FIPS 180-4 `Σ0`. -/
def bigS0 (x : Nat) : Nat := rotr32 2 x ^^^ rotr32 13 x ^^^ rotr32 22 x

/-- FIPS 180-4 `Σ1`. -/
def bigS1 (x : Nat) : Nat := rotr32 6 x ^^^ rotr32 11 x ^^^ rotr32 25 x

/-- FIPS 180-4 `σ0`. -/
def smallS0 (x : Nat) : Nat := rotr32 7 x ^^^ rotr32 18 x ^^^ (x >>> 3)

/-- FIPS 180-4 `σ1`. -/
def smallS1 (x : Nat) : Nat := rotr32 17 x ^^^ rotr32 19 x ^^^ (x >>> 10)

/-- The 64 SHA-256 round constants (FIPS 180-4, in decimal). -/
def sha256K : List Nat :=
  [1116352408, 1899447441, 3049323471, 3921009573,
   961987163, 1508970993, 2453635748, 2870763221,
   3624381080, 310598401, 607225278, 1426881987,
   1925078388, 2162078206, 2614888103, 3248222580,
   3835390401, 4022224774, 264347078, 604807628,
   770255983, 1249150122, 1555081692, 1996064986,
   2554220882, 2821834349, 2952996808, 3210313671,
   3336571891, 3584528711, 113926993, 338241895,
   666307205, 773529912, 1294757372, 1396182291,
   1695183700, 1986661051, 2177026350, 2456956037,
   2730485921, 2820302411, 3259730800, 3345764771,
   3516065817, 3600352804, 4094571909, 275423344,
   430227734, 506948616, 659060556, 883997877,
   958139571, 1322822218, 1537002063, 1747873779,
   1955562222, 2024104815, 2227730452, 2361852424,
   2428436474, 2756734187, 3204031479, 3329325298]

/-- The eight-word SHA-256 hash state. -/
structure Digest8 where
  a : Nat
  b : Nat
  c : Nat
  d : Nat
  e : Nat
  f : Nat
  g : Nat
  h : Nat

/-- The SHA-256 initial hash value. -/
def sha256IV : Digest8 :=
  ⟨1779033703, 3144134277, 1013904242, 2773480762,
   1359893119, 2600822924, 528734635, 1541459225⟩

/-- One big-endian 32-bit word from four bytes. -/
def beWord (b0 b1 b2 b3 : Nat) : Nat :=
  ((b0 * 256 + b1) * 256 + b2) * 256 + b3

/-- Group a byte list into big-endian 32-bit words. -/
def toWords : List Nat → List Nat
  | b0 :: b1 :: b2 :: b3 :: rest => beWord b0 b1 b2 b3 :: toWords rest
  | _ => []

/-- The next word of the SHA-256 message schedule, from the words so far. -/
def scheduleNext (ws : List Nat) : Nat :=
  let i := ws.length
  w32 (smallS1 (ws.getD (i - 2) 0) + ws.getD (i - 7) 0 +
       smallS0 (ws.getD (i - 15) 0) + ws.getD (i - 16) 0)

/-- Extend the message schedule by `n` further words. -/
def extendWords : Nat → List Nat → List Nat
  | 0, ws => ws
  | n + 1, ws => extendWords n (ws ++ [scheduleNext ws])

/-- One SHA-256 compression round; `kw` pairs the schedule word with the
round constant. -/
def roundStep (st : Digest8) (kw : Nat × Nat) : Digest8 :=
  let t1 := w32 (st.h + bigS1 st.e + chFn st.e st.f st.g + kw.1 + kw.2)
  let t2 := w32 (bigS0 st.a + majFn st.a st.b st.c)
  ⟨w32 (t1 + t2), st.a, st.b, st.c, w32 (st.d + t1), st.e, st.f, st.g⟩

/-- Compress one 64-byte block into the hash state. -/
def compressBlock (st : Digest8) (block : List Nat) : Digest8 :=
  let ws := extendWords 48 (toWords block)
  let r := (ws.zip sha256K).foldl roundStep st
  ⟨w32 (st.a + r.a), w32 (st.b + r.b), w32 (st.c + r.c), w32 (st.d + r.d),
   w32 (st.e + r.e), w32 (st.f + r.f), w32 (st.g + r.g), w32 (st.h + r.h)⟩

/-- Fold `n` successive 64-byte blocks into the hash state. -/
def processBlocks : Nat → List Nat → Digest8 → Digest8
  | 0, _, st => st
  | n + 1, bytes, st => processBlocks n (bytes.drop 64) (compressBlock st (bytes.take 64))

/-- The 8-byte big-endian encoding of the bit length. -/
def be64 (n : Nat) : List Nat :=
  [(n >>> 56) % 256, (n >>> 48) % 256, (n >>> 40) % 256, (n >>> 32) % 256,
   (n >>> 24) % 256, (n >>> 16) % 256, (n >>> 8) % 256, n % 256]

/-- FIPS 180-4 padding: `0x80`, zeros to 56 mod 64, then the bit length. -/
def padMessage (msg : List Nat) : List Nat :=
  msg ++ 128 :: List.replicate ((64 - (msg.length + 9) % 64) % 64) 0 ++ be64 (8 * msg.length)

/-- Big-endian byte serialization of one 32-bit word. -/
def wordBytes (w : Nat) : List Nat :=
  [(w >>> 24) % 256, (w >>> 16) % 256, (w >>> 8) % 256, w % 256]

/-- The 32 digest bytes of a hash state. -/
def digest8Bytes (st : Digest8) : List Nat :=
  wordBytes st.a ++ wordBytes st.b ++ wordBytes st.c ++ wordBytes st.d ++
  wordBytes st.e ++ wordBytes st.f ++ wordBytes st.g ++ wordBytes st.h

/-- SHA-256 of a byte list, as `crypto.subtle.digest('SHA-256', ·)` returns. -/
def sha256 (msg : List Nat) : List Nat :=
  digest8Bytes (processBlocks ((padMessage msg).length / 64) (padMessage msg) sha256IV)

/-! ## Peer id derivation (`unnamed/part_015`)

`hashKeyphrase` (lines 60-77) hex-encodes the digest, reads the first eight
hex byte pairs back with `parseInt(·, 16)` and maps each through a 36
character alphabet. -/

/-- One lowercase hex digit, as JS `Number.prototype.toString(16)` emits. -/
def hexDigitChar (n : Nat) : Char :=
  "0123456789abcdef".toList.getD n '0'

/-- JS `b.toString(16).padStart(2, '0')` for one byte value `b < 256`. -/
def byteHex (b : Nat) : List Char :=
  if b < 16 then ['0', hexDigitChar b]
  else [hexDigitChar (b / 16), hexDigitChar (b % 16)]

/-- The hex string of a byte list (`hashArray.map(...).join('')`). -/
def bytesHex (bytes : List Nat) : List Char :=
  bytes.flatMap byteHex

/-- The numeric value of one hex digit character, as `parseInt(·, 16)` reads
it; other characters contribute nothing. -/
def hexCharVal (c : Char) : Nat :=
  if '0' ≤ c ∧ c ≤ '9' then c.toNat - 48
  else if 'a' ≤ c ∧ c ≤ 'f' then c.toNat - 87
  else if 'A' ≤ c ∧ c ≤ 'F' then c.toNat - 55
  else 0

/-- JS `parseInt(s, 16)` on the two-character slices the source takes. -/
def parseHexPair : List Char → Nat
  | [c1, c2] => 16 * hexCharVal c1 + hexCharVal c2
  | [c1] => hexCharVal c1
  | _ => 0

/-- The 36-character output alphabet of `hashKeyphrase` (line 69). -/
def peerIdAlphabet : List Char :=
  "abcdefghijklmnopqrstuvwxyz0123456789".toList

/-- `hashKeyphrase` (part_015 lines 60-77): SHA-256 the UTF-8 bytes, hex the
digest, then for `i = 0, 2, ..., 14` map `parseInt(hex.substr(i, 2), 16)`
through the alphabet modulo its length. -/
def hashKeyphrase (keyphrase : List Char) : List Char :=
  let hashHex := bytesHex (sha256 (utf8Bytes keyphrase))
  (List.range 8).map (fun j =>
    peerIdAlphabet.getD (parseHexPair ((hashHex.drop (2 * j)).take 2) % peerIdAlphabet.length) 'a')

/-- The peer id `initializePeer` registers (part_015 line 85):
`hashKeyphrase(displayKeyphrase.toLowerCase().trim())`. -/
def registeredPeerId (displayKeyphrase : List Char) : List Char :=
  hashKeyphrase (jsTrim (jsToLower displayKeyphrase))

/-- Whether `c` survives `replace(/[^a-z0-9-]/g, '')` (part_015 line 198). -/
def isTargetAllowed (c : Char) : Bool :=
  ('a' ≤ c && c ≤ 'z') || ('0' ≤ c && c ≤ '9') || c = '-'

/-- The target id `connectToPeer` dials (part_015 lines 187, 198):
normalize, strip disallowed characters, truncate to 20. -/
def connectTargetId (peerIdKeyphrase : List Char) : List Char :=
  ((jsTrim (jsToLower peerIdKeyphrase)).filter isTargetAllowed).take 20

/-! ## Connection manager state

The mutable maps of `WebRTCManager` (part_015 lines 9-19), with connection
objects, pending promises and timer handles represented by numeric ids. -/

/-- A peer address, a JS string. -/
abbrev Addr := List Char

/-- JS `Map.prototype.set`: overwrite the binding for `k`. -/
def mapSet (k : Addr) (v : Nat) (m : List (Addr × Nat)) : List (Addr × Nat) :=
  (k, v) :: m.filter (fun q => !(q.1 == k))

/-- JS `Map.prototype.delete`: drop the binding for `k`. -/
def mapDelete (k : Addr) (m : List (Addr × Nat)) : List (Addr × Nat) :=
  m.filter (fun q => !(q.1 == k))

/-- The manager state relevant to connect, dedup and reconnection. -/
structure MgrState where
  isReady : Bool
  connections : List (Addr × Nat)
  pendingConnections : List (Addr × Nat)
  reconnectAttempts : List (Addr × Nat)
  reconnectTimers : List (Addr × Nat)

/-- What a `connectToPeer` call returns to its caller. -/
inductive ConnectOutcome where
  /-- The readiness guard threw (part_015 lines 191-193). -/
  | notReady
  /-- The existing connection was returned (lines 201-204). -/
  | existing (conn : Nat)
  /-- The in-flight promise was returned to a further caller (lines 207-210). -/
  | sharedPending (promise : Nat)
  /-- A fresh attempt sequence was started and its promise registered
  (lines 213-214). -/
  | started (promise : Nat)
deriving DecidableEq

/-- The synchronous dispatch of `connectToPeer` (part_015 lines 186-221):
readiness guard, existing-connection check, pending-connection check, then
registration of a fresh connect promise `newPromise`. -/
def connectToPeer (st : MgrState) (keyphrase : List Char) (newPromise : Nat) :
    MgrState × ConnectOutcome :=
  let target := connectTargetId keyphrase
  if st.isReady = false then (st, .notReady)
  else
    match st.connections.lookup target with
    | some c => (st, .existing c)
    | none =>
      match st.pendingConnections.lookup target with
      | some p => (st, .sharedPending p)
      | none =>
        ({ st with pendingConnections := mapSet target newPromise st.pendingConnections },
         .started newPromise)

/-- The `.finally` cleanup of the connect promise (part_015 lines 217-219):
the pending record is removed once the operation settles. -/
def settleConnect (st : MgrState) (target : Addr) : MgrState :=
  { st with pendingConnections := mapDelete target st.pendingConnections }

/-- The `open` handler of `createConnection` (part_015 lines 282-299):
register the connection and reset the reconnect counter for that address. -/
def onConnectionOpen (st : MgrState) (peerId : Addr) (connId : Nat) : MgrState :=
  { st with connections := mapSet peerId connId st.connections,
            reconnectAttempts := mapDelete peerId st.reconnectAttempts }

/-- `attemptReconnection` (part_015 lines 560-584): read the per-address
attempt counter, give up at 5, otherwise bump it, store the timer handle and
schedule after `min(1000 * 2^attempts, 16000)` ms; the scheduled delay is
returned alongside the new state, `none` when nothing was scheduled. -/
def attemptReconnection (st : MgrState) (peerId : Addr) (timerId : Nat) :
    MgrState × Option Nat :=
  let attempts := (st.reconnectAttempts.lookup peerId).getD 0
  if attempts ≥ 5 then (st, none)
  else
    ({ st with reconnectAttempts := mapSet peerId (attempts + 1) st.reconnectAttempts,
               reconnectTimers := mapSet peerId timerId st.reconnectTimers },
     some (min (1000 * 2 ^ attempts) 16000))

/-- The delays scheduled by `n` consecutive failing reconnection rounds for
one address: each scheduled attempt fails, so the close handler calls
`attemptReconnection` again on the updated state. -/
def reconnectFailureSeq : Nat → MgrState → Addr → List (Option Nat)
  | 0, _, _ => []
  | n + 1, st, p =>
    (attemptReconnection st p 0).2 :: reconnectFailureSeq n (attemptReconnection st p 0).1 p

/-! ## Quality monitor messages (part_015 lines 463-558) -/

/-- A quality ping or pong wire message. -/
structure QualityMsg where
  type : String
  pingId : String
  timestamp : Int

/-- The ping the interval callback sends (part_015 lines 474-479): a fresh id
and the local send time. -/
def mkQualityPing (pingId : String) (now : Int) : QualityMsg :=
  ⟨"quality_ping", pingId, now⟩

/-- The pong `handleQualityPing` answers with (part_015 lines 509-513): the
ping id is echoed, but the timestamp is the responder's own clock. -/
def mkQualityPong (ping : QualityMsg) (responderNow : Int) : QualityMsg :=
  ⟨"quality_pong", ping.pingId, responderNow⟩

/-- The round-trip time `handleQualityPong` records (part_015 line 528):
`Date.now() - data.timestamp` on the received pong message. -/
def pongRtt (pongMsg : QualityMsg) (now : Int) : Int :=
  now - pongMsg.timestamp

/-- The quality tier of an RTT sample (part_015 lines 532-540 and
`src/webrtc-manager.js` line 852). -/
def classifyRtt (rtt : Int) : String :=
  if rtt < 50 then "excellent"
  else if rtt < 100 then "good"
  else if rtt < 200 then "fair"
  else "poor"

/-- A recorded quality sample: tier plus the measured RTT when one exists. -/
structure QualitySample where
  level : String
  rtt : Option Int

/-- The ping timeout in ms after which a missing pong is recorded as a poor
sample (`src/webrtc-manager.js` line 823). -/
def qualityPingTimeoutMs : Nat := 1000

/-- The sample the ping-timeout handler records (`src/webrtc-manager.js`
lines 816-823): tier `poor`, no RTT. -/
def pingTimeoutSample : QualitySample :=
  ⟨"poor", none⟩

/-! ## Message dispatch (part_015 lines 394-428) -/

/-- A parsed wire message: its `type` discriminator plus an opaque id
standing for the rest of the parsed object. -/
structure WireMsg where
  type : String
  body : Nat
deriving DecidableEq

/-- Where `handleDataReceived` routes a message of the given type. -/
inductive DispatchResult where
  | consumedHandshake
  | consumedQualityPing
  | consumedQualityPong
  | forwarded
deriving DecidableEq

/-- The type dispatch of `handleDataReceived` (part_015 lines 399-415):
handshake and quality ping/pong are consumed; anything else falls through to
the callback loop. -/
def dispatchMessageType (t : String) : DispatchResult :=
  if t = "handshake" then .consumedHandshake
  else if t = "quality_ping" then .consumedQualityPing
  else if t = "quality_pong" then .consumedQualityPong
  else .forwarded

/-- The deliveries `handleDataReceived` makes for one message (part_015
lines 417-424): a consumed message reaches no callback, any other message is
passed verbatim to every registered callback. -/
def handleDataReceived (msg : WireMsg) (callbacks : List Nat) : List (Nat × WireMsg) :=
  match dispatchMessageType msg.type with
  | .forwarded => callbacks.map (fun cb => (cb, msg))
  | _ => []

/-! ## Broadcast send (part_015 lines 430-461) -/

/-- One registered data connection: whether it is open, and whether its
`send` succeeds rather than throwing. -/
structure DataConn where
  isOpen : Bool
  sendOk : Bool

/-- `sendData` (part_015 lines 430-461): `false` with no connections,
otherwise count per connection a success (open and send succeeded) or a
failure, and return `false` exactly when there were failures and no
success. -/
def sendData (conns : List DataConn) : Bool :=
  if conns.isEmpty then false
  else
    let counts := conns.foldl
      (fun (p : Nat × Nat) c => if c.isOpen && c.sendOk then (p.1 + 1, p.2) else (p.1, p.2 + 1))
      (0, 0)
    if counts.2 > 0 ∧ counts.1 = 0 then false else true

/-! ## Helper lemmas -/

/-- The alphabet has 36 characters, as `chars.length` evaluates to. -/
theorem peerIdAlphabet_length : peerIdAlphabet.length = 36 := by decide

/-- `hashKeyphrase` always yields exactly 8 characters. -/
theorem hashKeyphrase_length (k : List Char) : (hashKeyphrase k).length = 8 := by
  simp [hashKeyphrase]

/-- Indexing the alphabet modulo its length always lands in the alphabet. -/
theorem peerIdAlphabet_getD_contains (n : Nat) :
    peerIdAlphabet.contains (peerIdAlphabet.getD (n % peerIdAlphabet.length) 'a') = true := by
  have hb : ∀ i, i < 36 → peerIdAlphabet.contains (peerIdAlphabet.getD i 'a') = true := by decide
  refine hb _ ?_
  rw [peerIdAlphabet_length]
  exact Nat.mod_lt _ (by norm_num)

/-- `Map.set` then `Map.get` on the same key yields the stored value. -/
theorem lookup_mapSet_self (k : Addr) (v : Nat) (m : List (Addr × Nat)) :
    (mapSet k v m).lookup k = some v := by
  simp [mapSet, List.lookup]

/-- `Map.delete` then `Map.get` on the same key yields nothing. -/
theorem lookup_mapDelete_self (k : Addr) (m : List (Addr × Nat)) :
    (mapDelete k m).lookup k = none := by
  induction m with
  | nil => rfl
  | cons q t ih =>
    by_cases h : q.1 = k
    · simpa [mapDelete, h] using ih
    · have h1 : (q.1 == k) = false := beq_eq_false_iff_ne.2 h
      have h2 : (k == q.1) = false := beq_eq_false_iff_ne.2 (Ne.symm h)
      simp only [mapDelete] at ih ⊢
      rw [List.filter_cons_of_pos (by simp [h1]), List.lookup, h2]
      exact ih

/-- The success/failure fold of `sendData` counts matching connections. -/
theorem sendData_foldl_counts (conns : List DataConn) (s f : Nat) :
    conns.foldl
      (fun (p : Nat × Nat) c => if c.isOpen && c.sendOk then (p.1 + 1, p.2) else (p.1, p.2 + 1))
      (s, f)
    = (s + conns.countP (fun c => c.isOpen && c.sendOk),
       f + conns.countP (fun c => !(c.isOpen && c.sendOk))) := by
  induction conns generalizing s f with
  | nil => simp
  | cons c t ih =>
    rw [List.foldl_cons]
    obtain ⟨co, cs⟩ := c
    cases co <;> cases cs <;>
      first
        | (rw [if_pos (by decide), ih]; simp [List.countP_cons, Prod.ext_iff]; omega)
        | (rw [if_neg (by decide), ih]; simp [List.countP_cons, Prod.ext_iff]; omega)

/-- Dropping a false-prefix predicate leaves a list unchanged. -/
theorem dropWhile_eq_self_of_false (p : Char → Bool) (l : List Char)
    (h : ∀ c ∈ l, p c = false) : l.dropWhile p = l := by
  cases l with
  | nil => rfl
  | cons c t =>
    rw [List.dropWhile_cons, if_neg]
    simp [h c (by simp)]

/-- `trim` leaves a string with no whitespace characters unchanged. -/
theorem jsTrim_eq_self (l : List Char) (h : ∀ c ∈ l, isJsWhitespace c = false) :
    jsTrim l = l := by
  unfold jsTrim
  rw [dropWhile_eq_self_of_false _ _ h,
      dropWhile_eq_self_of_false _ _ (fun c hc => h c (List.mem_reverse.1 hc)),
      List.reverse_reverse]

/-- Every alphabet character is lowercase, non-whitespace and survives the
target-id strip. -/
theorem peerIdAlphabet_canonical :
    ∀ c ∈ peerIdAlphabet,
      asciiLower c = c ∧ isJsWhitespace c = false ∧ isTargetAllowed c = true := by
  decide

/-- Indexing the alphabet modulo its length yields an alphabet member. -/
theorem peerIdAlphabet_getD_mem (n : Nat) :
    peerIdAlphabet.getD (n % peerIdAlphabet.length) 'a' ∈ peerIdAlphabet := by
  have hb : ∀ i, i < 36 → peerIdAlphabet.getD i 'a' ∈ peerIdAlphabet := by decide
  refine hb _ ?_
  rw [peerIdAlphabet_length]
  exact Nat.mod_lt _ (by norm_num)

/-- Every character of a hashed keyphrase lies in the alphabet. -/
theorem hashKeyphrase_mem (k : List Char) :
    ∀ c ∈ hashKeyphrase k, c ∈ peerIdAlphabet := by
  intro c hc
  simp only [hashKeyphrase, List.mem_map] at hc
  obtain ⟨j, -, rfl⟩ := hc
  exact peerIdAlphabet_getD_mem _

/-- A registered hash-derived peer id is canonical: the normalization the
dial side applies leaves it unchanged, so derived addresses are fixed points
of `connectTargetId`. -/
theorem connectTargetId_registered (k : List Char) :
    connectTargetId (registeredPeerId k) = registeredPeerId k := by
  have hmem : ∀ c ∈ registeredPeerId k, c ∈ peerIdAlphabet :=
    hashKeyphrase_mem (jsTrim (jsToLower k))
  have hprops := fun c hc => peerIdAlphabet_canonical c (hmem c hc)
  unfold connectTargetId
  have hlow : jsToLower (registeredPeerId k) = registeredPeerId k := by
    unfold jsToLower
    rw [List.map_congr_left (fun c hc => (hprops c hc).1)]
    exact List.map_id _
  rw [hlow, jsTrim_eq_self _ (fun c hc => (hprops c hc).2.1),
      List.filter_eq_self.2 (fun c hc => (hprops c hc).2.2)]
  refine List.take_of_length_le ?_
  have h8 : (registeredPeerId k).length = 8 := hashKeyphrase_length _
  omega

/-! ## Claim theorems -/

set_option maxRecDepth 8000 in
/-- C1: the claim says `initializePeer(K)` registers the local endpoint under
the same address `connectToPeer(K)` dials.  The code violates this: for the
keyphrase "apple banana cherry 123", `initializePeer` registers the 8
character SHA-256 derived id "vhm6h6nq" while `connectToPeer` dials the 20
character stripped keyphrase "applebananacherry123", so the two sides of the
claimed equality differ. -/
theorem register_dial_mismatch :
    registeredPeerId "apple banana cherry 123".toList = "vhm6h6nq".toList
    ∧ connectTargetId "apple banana cherry 123".toList = "applebananacherry123".toList
    ∧ ("vhm6h6nq".toList == "applebananacherry123".toList) = false := by
  refine ⟨by decide, by decide, by decide⟩

/-- C2: address derivation as performed by `initializePeer` is a pure
function of the trim/lowercase normalised keyphrase: identifiers equal after
normalisation derive the same peer id. -/
theorem derive_deterministic (h1 h2 : List Char)
    (hn : jsTrim (jsToLower h1) = jsTrim (jsToLower h2)) :
    registeredPeerId h1 = registeredPeerId h2 := by
  unfold registeredPeerId
  rw [hn]

/-- Witness for C2 at two identifiers differing in case and whitespace. -/
theorem derive_deterministic_witness :
    jsTrim (jsToLower "  Apple Banana 123".toList) = jsTrim (jsToLower "apple banana 123  ".toList)
    ∧ registeredPeerId "  Apple Banana 123".toList = registeredPeerId "apple banana 123  ".toList :=
  ⟨by decide, derive_deterministic _ _ (by decide)⟩

/-- C3: `connectToPeer` on an address whose connection is already registered
returns that connection with the state unchanged, so no second channel is
opened for it. -/
theorem connect_returns_existing (st : MgrState) (A : Addr) (c newPromise : Nat)
    (hready : st.isReady = true)
    (hcanon : connectTargetId A = A)
    (hconn : st.connections.lookup A = some c) :
    connectToPeer st A newPromise = (st, .existing c) := by
  unfold connectToPeer
  simp [hready, hcanon, hconn]

/-- Witness for C3 on a one-connection state. -/
theorem connect_returns_existing_witness :
    connectToPeer ⟨true, [("abc123".toList, 7)], [], [], []⟩ "abc123".toList 99
      = (⟨true, [("abc123".toList, 7)], [], [], []⟩, .existing 7) :=
  connect_returns_existing _ _ _ _ rfl (by decide) (by decide)

/-- C4: the first connect call on an unconnected address installs a pending
record and starts the one attempt sequence; any further call before it
settles returns the same in-flight promise without changing the state, and
settling removes the pending record. -/
theorem pending_connect_dedup (st : MgrState) (k : List Char) (p q : Nat)
    (hready : st.isReady = true)
    (hnoconn : st.connections.lookup (connectTargetId k) = none)
    (hnopend : st.pendingConnections.lookup (connectTargetId k) = none) :
    connectToPeer st k p =
      ({ st with pendingConnections := mapSet (connectTargetId k) p st.pendingConnections },
       .started p)
    ∧ connectToPeer
        { st with pendingConnections := mapSet (connectTargetId k) p st.pendingConnections } k q
      = ({ st with pendingConnections := mapSet (connectTargetId k) p st.pendingConnections },
         .sharedPending p)
    ∧ (settleConnect
        { st with pendingConnections := mapSet (connectTargetId k) p st.pendingConnections }
        (connectTargetId k)).pendingConnections.lookup (connectTargetId k) = none := by
  refine ⟨?_, ?_, ?_⟩
  · unfold connectToPeer
    simp [hready, hnoconn, hnopend]
  · unfold connectToPeer
    simp [hready, hnoconn, lookup_mapSet_self]
  · simp [settleConnect, lookup_mapDelete_self]

/-- Witness for C4 from the fresh ready state. -/
theorem pending_connect_dedup_witness :
    connectToPeer ⟨true, [], [], [], []⟩ "abc123".toList 5 =
      ({ MgrState.mk true [] [] [] [] with
          pendingConnections := mapSet (connectTargetId "abc123".toList) 5 [] }, .started 5)
    ∧ connectToPeer
        { MgrState.mk true [] [] [] [] with
            pendingConnections := mapSet (connectTargetId "abc123".toList) 5 [] } "abc123".toList 6
      = ({ MgrState.mk true [] [] [] [] with
            pendingConnections := mapSet (connectTargetId "abc123".toList) 5 [] },
         .sharedPending 5)
    ∧ (settleConnect
        { MgrState.mk true [] [] [] [] with
            pendingConnections := mapSet (connectTargetId "abc123".toList) 5 [] }
        (connectTargetId "abc123".toList)).pendingConnections.lookup
          (connectTargetId "abc123".toList) = none :=
  pending_connect_dedup ⟨true, [], [], [], []⟩ "abc123".toList 5 6 rfl (by decide) (by decide)

/-- C5: starting from a fresh attempt counter, six consecutive failure
rounds schedule delays of exactly 1000, 2000, 4000, 8000 and 16000 ms and
then schedule nothing, and a successful open resets the counter for the
address to zero. -/
theorem reconnect_backoff (st : MgrState) (p : Addr)
    (h : st.reconnectAttempts.lookup p = none) :
    reconnectFailureSeq 6 st p
      = [some 1000, some 2000, some 4000, some 8000, some 16000, none]
    ∧ ∀ (st2 : MgrState) (cid : Nat),
        ((onConnectionOpen st2 p cid).reconnectAttempts.lookup p).getD 0 = 0 := by
  constructor
  · simp [reconnectFailureSeq, attemptReconnection, h, lookup_mapSet_self]
  · intro st2 cid
    simp [onConnectionOpen, lookup_mapDelete_self]

/-- Witness for C5 from the fresh state. -/
theorem reconnect_backoff_witness :
    reconnectFailureSeq 6 ⟨true, [], [], [], []⟩ "abc123".toList
      = [some 1000, some 2000, some 4000, some 8000, some 16000, none] :=
  (reconnect_backoff ⟨true, [], [], [], []⟩ "abc123".toList rfl).1

/-- C6: the claim says the recorded RTT equals receiver time minus the send
timestamp of the original ping.  The code violates this: `handleQualityPing`
stamps the pong with the responder's own clock and `handleQualityPong`
subtracts that, so a ping sent at 1000 answered by a responder whose clock
reads 5000 and received back at 1400 records -3600, not 1400 - 1000 = 400. -/
theorem pong_rtt_uses_responder_clock :
    pongRtt (mkQualityPong (mkQualityPing "peer-1000" 1000) 5000) 1400 = -3600
    ∧ ((-3600 : Int) == 1400 - (mkQualityPing "peer-1000" 1000).timestamp) = false := by
  refine ⟨by decide, by decide⟩

/-- C7: the quality tier of an RTT sample is excellent below 50 ms, good in
[50, 100), fair in [100, 200) and poor from 200 ms on, so 30, 80, 150 and
300 ms classify as excellent, good, fair and poor, and the 1000 ms ping
timeout records a poor sample. -/
theorem rtt_quality_tiers (rtt : Int) :
    (rtt < 50 → classifyRtt rtt = "excellent")
    ∧ (50 ≤ rtt → rtt < 100 → classifyRtt rtt = "good")
    ∧ (100 ≤ rtt → rtt < 200 → classifyRtt rtt = "fair")
    ∧ (200 ≤ rtt → classifyRtt rtt = "poor")
    ∧ classifyRtt 30 = "excellent" ∧ classifyRtt 80 = "good"
    ∧ classifyRtt 150 = "fair" ∧ classifyRtt 300 = "poor"
    ∧ pingTimeoutSample.level = "poor" ∧ qualityPingTimeoutMs = 1000 := by
  refine ⟨?_, ?_, ?_, ?_, by decide, by decide, by decide, by decide, rfl, rfl⟩
  · intro h
    simp [classifyRtt, h]
  · intro h1 h2
    unfold classifyRtt
    rw [if_neg (by omega), if_pos h2]
  · intro h1 h2
    unfold classifyRtt
    rw [if_neg (by omega), if_neg (by omega), if_pos h2]
  · intro h
    unfold classifyRtt
    rw [if_neg (by omega), if_neg (by omega), if_neg (by omega)]

/-- Witness for C7 at the sample RTT values named by the claim. -/
theorem rtt_quality_tiers_witness :
    classifyRtt 30 = "excellent" ∧ classifyRtt 300 = "poor" :=
  ⟨(rtt_quality_tiers 30).1 (by decide),
   (rtt_quality_tiers 300).2.2.2.1 (by decide)⟩

/-- C8 counterexample: the claim says a `discovery_ping` message is consumed
internally and never delivered to a data callback, but `handleDataReceived`
forwards it to every registered callback. -/
theorem discovery_ping_delivered :
    handleDataReceived ⟨"discovery_ping", 7⟩ [0, 1]
      = [(0, ⟨"discovery_ping", 7⟩), (1, ⟨"discovery_ping", 7⟩)] := by
  decide

/-- C8 amended: the recognized protocol types are exactly handshake,
quality_ping and quality_pong; those are consumed internally and reach no
data callback, while a message of any other type (discovery types included)
is delivered verbatim to every registered callback. -/
theorem dispatch_recognized_consumed (msg : WireMsg) (cbs : List Nat) :
    (msg.type = "handshake" ∨ msg.type = "quality_ping" ∨ msg.type = "quality_pong" →
      handleDataReceived msg cbs = [])
    ∧ (msg.type ≠ "handshake" → msg.type ≠ "quality_ping" → msg.type ≠ "quality_pong" →
      handleDataReceived msg cbs = cbs.map (fun cb => (cb, msg))) := by
  constructor
  · rintro (h | h | h) <;> simp [handleDataReceived, dispatchMessageType, h]
  · intro h1 h2 h3
    simp [handleDataReceived, dispatchMessageType, h1, h2, h3]

/-- Witness for C8: a quality ping reaches no callback, gyroscope data
reaches both registered callbacks. -/
theorem dispatch_recognized_consumed_witness :
    handleDataReceived ⟨"quality_ping", 3⟩ [0, 1] = []
    ∧ handleDataReceived ⟨"gyro_data", 3⟩ [0, 1]
      = [(0, ⟨"gyro_data", 3⟩), (1, ⟨"gyro_data", 3⟩)] :=
  ⟨(dispatch_recognized_consumed ⟨"quality_ping", 3⟩ [0, 1]).1 (Or.inr (Or.inl rfl)),
   (dispatch_recognized_consumed ⟨"gyro_data", 3⟩ [0, 1]).2 (by decide) (by decide) (by decide)⟩

/-- C9: `sendData` is a total boolean-returning function that answers true
exactly when some connection is open and accepted the payload, and in
particular answers false on the empty connection map. -/
theorem sendData_true_iff_accepted (conns : List DataConn) :
    sendData conns = conns.any (fun c => c.isOpen && c.sendOk)
    ∧ sendData [] = false := by
  refine ⟨?_, rfl⟩
  cases conns with
  | nil => rfl
  | cons c t =>
    unfold sendData
    rw [if_neg (by simp)]
    rw [sendData_foldl_counts]
    by_cases hS : (c :: t).countP (fun x => x.isOpen && x.sendOk) = 0
    · have hany : (c :: t).any (fun x => x.isOpen && x.sendOk) = false := by
        rw [List.any_eq_false]
        exact fun x hx => List.countP_eq_zero.1 hS x hx
      have hfail : 0 < (c :: t).countP (fun x => !(x.isOpen && x.sendOk)) := by
        have hcb : (c.isOpen && c.sendOk) = false :=
          Bool.eq_false_iff.2 (List.countP_eq_zero.1 hS c (by simp))
        rw [List.countP_cons]
        simp [hcb]
      rw [hany, if_pos ⟨by omega, by omega⟩]
    · have hany : (c :: t).any (fun x => x.isOpen && x.sendOk) = true := by
        rw [List.any_eq_true]
        obtain ⟨x, hx, hpx⟩ := List.countP_pos_iff.1 (Nat.pos_of_ne_zero hS)
        exact ⟨x, hx, hpx⟩
      rw [hany, if_neg]
      rintro ⟨-, h0⟩
      omega

/-- C10: for every input string, `hashKeyphrase` yields exactly 8
characters, each drawn from the 36 character lowercase alphanumeric
alphabet, so every derived peer address is transport safe. -/
theorem hashKeyphrase_shape (k : List Char) :
    (hashKeyphrase k).length = 8
    ∧ (hashKeyphrase k).all (fun c => peerIdAlphabet.contains c) = true := by
  refine ⟨hashKeyphrase_length k, ?_⟩
  rw [List.all_eq_true]
  intro c hc
  simp only [hashKeyphrase, List.mem_map] at hc
  obtain ⟨j, hj, rfl⟩ := hc
  exact peerIdAlphabet_getD_contains _

end P2PGyro
